import Mathlib

/-!
Shallow embedding of the `idxrs` library (`src/lib.rs`): an IDX binary
container header parser and a random-access cursor over the encoded
N-dimensional array.

Modelling conventions:
* A byte source (`R: Read + Seek` instantiated at a byte-array-backed
  cursor) is an `IdxReader`: the full byte list plus a read position.
  `read_exact` succeeds iff enough bytes remain; on failure the position
  moves past the consumed bytes (as with the default `read_exact` loop).
  `seek(SeekFrom::Start(p))` always succeeds, as for an in-memory cursor.
* Bytes are `Nat` values (< 256 in any well-formed source).
* `u64` arithmetic in the offset computation wraps modulo `2 ^ 64`,
  matching release-mode Rust semantics.
* Casts `as u8` reduce modulo 256.
* `f32`/`f64` values are represented by their IEEE-754 bit patterns
  (`from_be_bytes` on floats is exactly big-endian bit reinterpretation).
* `io::Error` payloads carry no useful structure here, so `IoError` is a
  bare constructor.
-/

set_option maxRecDepth 4096

deriving instance DecidableEq for Except

/-- Error enum of `src/lib.rs` (`IdxError`). `u8`/`u32` payload fields are
modelled as `Nat`, already reduced by the `as u8` casts where the code casts. -/
inductive IdxError where
  | dimensionMismatch (needed : Nat) (supplied : Nat)
  | outOfBounds (dimension : Nat) (max : Nat) (index : Nat)
  | wrongHeader
  | ioError
  | unknownDataType
  | cannotCast
deriving DecidableEq, Repr

/-- A seekable byte source: the underlying bytes and the current read position. -/
structure IdxReader where
  data : List Nat
  pos : Nat
deriving DecidableEq, Repr

/-- `Read::read_exact` into a buffer of `n` bytes, plus the reader state
afterwards.  Succeeds iff `n` bytes remain at the current position; on
failure the position has advanced past everything available. -/
def readExact (r : IdxReader) (n : Nat) : Except IdxError (List Nat) × IdxReader :=
  if r.pos + n ≤ r.data.length then
    (.ok ((r.data.drop r.pos).take n), ⟨r.data, r.pos + n⟩)
  else
    (.error .ioError, ⟨r.data, Nat.max r.pos r.data.length⟩)

/-- The `IdxDataType` enum. -/
inductive IdxDataType where
  | unsignedByte
  | signedByte
  | short
  | int
  | float
  | double
deriving DecidableEq, Repr

/-- `IdxDataType::read`: resolve the header type-tag byte. -/
def IdxDataType.read (b : Nat) : Except IdxError IdxDataType :=
  if b = 0x08 then .ok .unsignedByte
  else if b = 0x09 then .ok .signedByte
  else if b = 0x0b then .ok .short
  else if b = 0x0c then .ok .int
  else if b = 0x0d then .ok .float
  else if b = 0x0e then .ok .double
  else .error .unknownDataType

/-- `IdxDataType::get_size`: byte width of each scalar kind. -/
def IdxDataType.get_size : IdxDataType → Nat
  | .unsignedByte => 1
  | .signedByte => 1
  | .short => 2
  | .int => 4
  | .float => 4
  | .double => 8

/-- `IdxDataType::create_buf`: a zeroed buffer of the type's byte width. -/
def IdxDataType.create_buf (t : IdxDataType) : List Nat :=
  List.replicate t.get_size 0

/-- `u32::from_be_bytes` (and the unsigned part of every `from_be_bytes`):
big-endian fold of a byte list. -/
def u32_from_be_bytes (bs : List Nat) : Nat :=
  bs.foldl (fun a b => a * 256 + b) 0

/-- Two's-complement reinterpretation of a `w`-bit unsigned value, as done by
`iN::from_be_bytes` on the big-endian fold of the bytes. -/
def toSigned (w : Nat) (n : Nat) : Int :=
  if n < 2 ^ (w - 1) then (n : Int) else (n : Int) - 2 ^ w

/-- The `from_slice!` macro: `try_into` an array of length `w` (checking the
length), then `from_be_bytes`.  Returns the unsigned big-endian fold. -/
def fromSlice (w : Nat) (bs : List Nat) : Except IdxError Nat :=
  if bs.length = w then .ok (u32_from_be_bytes bs) else .error .cannotCast

/-- The `IdxValue` enum.  Integer kinds carry their numeric value
(`Int` for the signed kinds); `float`/`double` carry IEEE-754 bit patterns. -/
inductive IdxValue where
  | unsignedByte (v : Nat)
  | signedByte (v : Int)
  | short (v : Int)
  | int (v : Int)
  | float (bits : Nat)
  | double (bits : Nat)
deriving DecidableEq, Repr

/-- `TryFrom<(IdxDataType, Box<[u8]>)> for IdxValue`: check the buffer length
against the type's width, then decode big-endian. -/
def IdxValue.tryFrom (idt : IdxDataType) (bytes : List Nat) : Except IdxError IdxValue :=
  if idt.get_size ≠ bytes.length then .error .cannotCast
  else
    match idt with
    | .unsignedByte => (fromSlice 1 bytes).map (fun n => .unsignedByte n)
    | .signedByte => (fromSlice 1 bytes).map (fun n => .signedByte (toSigned 8 n))
    | .short => (fromSlice 2 bytes).map (fun n => .short (toSigned 16 n))
    | .int => (fromSlice 4 bytes).map (fun n => .int (toSigned 32 n))
    | .float => (fromSlice 4 bytes).map (fun n => .float n)
    | .double => (fromSlice 8 bytes).map (fun n => .double n)

/-- The `IdxCursor` struct: owned reader, dimension vector, data type. -/
structure IdxCursor where
  reader : IdxReader
  dimensions : List Nat
  data_type : IdxDataType
deriving DecidableEq, Repr

/-- The dimension-reading loop of `create_idx_cursor`: read `n` 4-byte
big-endian values, pushing them in order. -/
def readDims (r : IdxReader) : Nat → Except IdxError (List Nat × IdxReader)
  | 0 => .ok ([], r)
  | k + 1 =>
    match readExact r 4 with
    | (.error e, _) => .error e
    | (.ok buf, r1) =>
      match readDims r1 k with
      | .error e => .error e
      | .ok (rest, r2) => .ok (u32_from_be_bytes buf :: rest, r2)

/-- `create_idx_cursor`: read the 4-byte magic, check the two zero bytes,
resolve the type tag, read `rank` dimension sizes, build the cursor. -/
def create_idx_cursor (r : IdxReader) : Except IdxError IdxCursor :=
  match readExact r 4 with
  | (.error e, _) => .error e
  | (.ok buf, r1) =>
    if buf.getD 0 0 ≠ 0 ∨ buf.getD 1 0 ≠ 0 then .error .wrongHeader
    else
      match IdxDataType.read (buf.getD 2 0) with
      | .error e => .error e
      | .ok dt =>
        match readDims r1 (buf.getD 3 0) with
        | .error e => .error e
        | .ok (dims, r2) => .ok ⟨r2, dims, dt⟩

/-- The bounds-checking loop of `IdxCursor::get`: walk axes with an
`enumerate` counter, reporting the first axis whose index is out of range. -/
def checkBounds : List Nat → List Nat → Nat → Option IdxError
  | d :: ds, x :: xs, i =>
    if d ≤ x then some (.outOfBounds (i % 256) d x) else checkBounds ds xs (i + 1)
  | _, _, _ => none

/-- One step of the offset loop of `IdxCursor::get` over state `(pos, mult)`:
`mult *= dimension; pos += index * mult`, in wrapping `u64` arithmetic. -/
def elemStep (pm : Nat × Nat) (di : Nat × Nat) : Nat × Nat :=
  let mult := pm.2 * di.1 % 2 ^ 64
  ((pm.1 + di.2 * mult % 2 ^ 64) % 2 ^ 64, mult)

/-- The element-offset accumulation of `IdxCursor::get`: fold `elemStep` over
dimension/index pairs from the last axis to the first. -/
def elemPos (dims idx : List Nat) : Nat :=
  ((dims.reverse.zip idx.reverse).foldl elemStep (0, 1)).1

/-- `IdxCursor::get`: rank check, bounds check, offset computation, absolute
seek, exact read.  Returns the call's result together with the cursor as left
by the call (`get` takes `&mut self`). -/
def IdxCursor.get (c : IdxCursor) (indices : List Nat) :
    Except IdxError (IdxDataType × List Nat) × IdxCursor :=
  if indices.length ≠ c.dimensions.length then
    (.error (.dimensionMismatch (c.dimensions.length % 256) (indices.length % 256)), c)
  else
    match checkBounds c.dimensions indices 0 with
    | some e => (.error e, c)
    | none =>
      let pos1 := elemPos c.dimensions indices * c.data_type.get_size % 2 ^ 64
      let pos2 := (pos1 + (4 + 4 * c.dimensions.length)) % 2 ^ 64
      match readExact ⟨c.reader.data, pos2⟩ c.data_type.create_buf.length with
      | (.ok buf, r1) => (.ok (c.data_type, buf), ⟨r1, c.dimensions, c.data_type⟩)
      | (.error e, r1) => (.error e, ⟨r1, c.dimensions, c.data_type⟩)

/-- The dimension list a well-formed header yields: `n` big-endian 32-bit
values taken from consecutive 4-byte chunks starting at position `p`. -/
def dimsSpec (data : List Nat) (p : Nat) : Nat → List Nat
  | 0 => []
  | k + 1 => u32_from_be_bytes ((data.drop p).take 4) :: dimsSpec data (p + 4) k

/-- The worked example of the spec: a rank-2 UnsignedByte file with
dimensions `[2, 3]` and data bytes `[10, 11, 12, 13, 14, 15]` (18 bytes). -/
def exampleFile : List Nat :=
  [0, 0, 8, 2, 0, 0, 0, 2, 0, 0, 0, 3, 10, 11, 12, 13, 14, 15]

/-- `IdxCursor.create_buf` buffers have exactly the type's byte width. -/
theorem create_buf_length (t : IdxDataType) : t.create_buf.length = t.get_size := by
  simp [IdxDataType.create_buf]

/-! ### Helper lemmas about the reader and the parser loops -/

theorem readExact_ok (r : IdxReader) (n : Nat) (h : r.pos + n ≤ r.data.length) :
    readExact r n = (.ok ((r.data.drop r.pos).take n), ⟨r.data, r.pos + n⟩) := by
  simp [readExact, h]

theorem readExact_err (r : IdxReader) (n : Nat) (h : r.data.length < r.pos + n) :
    readExact r n = (.error .ioError, ⟨r.data, Nat.max r.pos r.data.length⟩) := by
  rw [readExact, if_neg (by omega)]

theorem take_four_bound {data : List Nat} {p b0 b1 b2 b3 : Nat}
    (h : (data.drop p).take 4 = [b0, b1, b2, b3]) : p + 4 ≤ data.length := by
  have hl := congrArg List.length h
  simp [List.length_take, List.length_drop] at hl
  omega

theorem dimsSpec_length (data : List Nat) : ∀ (n p : Nat), (dimsSpec data p n).length = n := by
  intro n
  induction n with
  | zero => intro p; rfl
  | succ k ih => intro p; simp [dimsSpec, ih]

theorem readDims_ok (n : Nat) : ∀ (data : List Nat) (p : Nat), p + 4 * n ≤ data.length →
    readDims ⟨data, p⟩ n = .ok (dimsSpec data p n, ⟨data, p + 4 * n⟩) := by
  induction n with
  | zero => intro data p _; simp [readDims, dimsSpec]
  | succ k ih =>
    intro data p h
    have h4 : (⟨data, p⟩ : IdxReader).pos + 4 ≤ (⟨data, p⟩ : IdxReader).data.length := by
      simp; omega
    simp only [readDims, readExact_ok ⟨data, p⟩ 4 h4]
    rw [ih data (p + 4) (by omega)]
    simp only [dimsSpec]
    have harith : p + 4 + 4 * k = p + 4 * (k + 1) := by omega
    rw [harith]

theorem readDims_err (n : Nat) : ∀ (data : List Nat) (p : Nat), 1 ≤ n →
    data.length < p + 4 * n → readDims ⟨data, p⟩ n = .error .ioError := by
  induction n with
  | zero => intro data p h _; omega
  | succ k ih =>
    intro data p _ h
    by_cases h4 : p + 4 ≤ data.length
    · have hk : 1 ≤ k := by omega
      simp only [readDims, readExact_ok ⟨data, p⟩ 4 (by simp; omega)]
      rw [ih data (p + 4) hk (by omega)]
    · simp only [readDims, readExact_err ⟨data, p⟩ 4 (by simp; omega)]

theorem create_idx_cursor_head {data : List Nat} {p b0 b1 b2 b3 : Nat}
    (h : (data.drop p).take 4 = [b0, b1, b2, b3]) :
    create_idx_cursor ⟨data, p⟩ =
      if b0 ≠ 0 ∨ b1 ≠ 0 then .error .wrongHeader
      else
        match IdxDataType.read b2 with
        | .error e => .error e
        | .ok dt =>
          match readDims ⟨data, p + 4⟩ b3 with
          | .error e => .error e
          | .ok (dims, r2) => .ok ⟨r2, dims, dt⟩ := by
  have h4 := take_four_bound h
  simp only [create_idx_cursor, readExact_ok ⟨data, p⟩ 4 (by simp; omega), h]
  rfl

/-! ### Helper lemmas about `IdxCursor.get` -/

theorem get_mismatch (c : IdxCursor) (indices : List Nat)
    (h : indices.length ≠ c.dimensions.length) :
    c.get indices =
      (.error (.dimensionMismatch (c.dimensions.length % 256) (indices.length % 256)), c) := by
  simp [IdxCursor.get, h]

theorem checkBounds_first : ∀ (ds xs : List Nat) (k i : Nat),
    xs.length = ds.length → i < ds.length →
    (∀ j, j < i → xs.getD j 0 < ds.getD j 0) →
    ds.getD i 0 ≤ xs.getD i 0 →
    checkBounds ds xs k = some (.outOfBounds ((k + i) % 256) (ds.getD i 0) (xs.getD i 0)) := by
  intro ds
  induction ds with
  | nil => intro xs k i _ hi; exact absurd hi (by simp)
  | cons d ds ih =>
    intro xs k i hlen hi hbelow hviol
    cases xs with
    | nil => simp at hlen
    | cons x xs =>
      cases i with
      | zero =>
        simp only [List.getD_cons_zero] at hviol ⊢
        simp [checkBounds, hviol]
      | succ j =>
        have hx : x < d := by simpa using hbelow 0 (Nat.succ_pos j)
        have hnd : ¬ d ≤ x := Nat.not_le.mpr hx
        simp only [checkBounds, if_neg hnd, List.getD_cons_succ]
        have hrec := ih xs (k + 1) j (by simpa using hlen) (by simpa using hi)
          (fun l hl => by simpa using hbelow (l + 1) (by omega))
          (by simpa using hviol)
        rw [hrec]
        have harith : k + 1 + j = k + (j + 1) := by omega
        rw [harith]

theorem get_checkBounds (c : IdxCursor) (indices : List Nat) (e : IdxError)
    (hlen : indices.length = c.dimensions.length)
    (hcb : checkBounds c.dimensions indices 0 = some e) :
    c.get indices = (.error e, c) := by
  simp [IdxCursor.get, hlen, hcb]

theorem get_inbounds (c : IdxCursor) (indices : List Nat)
    (hlen : indices.length = c.dimensions.length)
    (hcb : checkBounds c.dimensions indices 0 = none) :
    c.get indices =
      match readExact
          ⟨c.reader.data,
            (elemPos c.dimensions indices * c.data_type.get_size % 2 ^ 64 +
              (4 + 4 * c.dimensions.length)) % 2 ^ 64⟩
          c.data_type.create_buf.length with
      | (.ok buf, r1) => (.ok (c.data_type, buf), ⟨r1, c.dimensions, c.data_type⟩)
      | (.error e, r1) => (.error e, ⟨r1, c.dimensions, c.data_type⟩) := by
  simp [IdxCursor.get, hlen, hcb]

theorem get_fst_pos (data : List Nat) (q q' : Nat) (dims : List Nat) (dt : IdxDataType)
    (idx : List Nat) :
    (IdxCursor.get ⟨⟨data, q⟩, dims, dt⟩ idx).1 = (IdxCursor.get ⟨⟨data, q'⟩, dims, dt⟩ idx).1 := by
  by_cases h : idx.length = dims.length
  · cases hcb : checkBounds dims idx 0 with
    | some e =>
      rw [get_checkBounds ⟨⟨data, q⟩, dims, dt⟩ idx e h hcb,
        get_checkBounds ⟨⟨data, q'⟩, dims, dt⟩ idx e h hcb]
    | none =>
      rw [get_inbounds ⟨⟨data, q⟩, dims, dt⟩ idx h hcb,
        get_inbounds ⟨⟨data, q'⟩, dims, dt⟩ idx h hcb]
  · rw [get_mismatch ⟨⟨data, q⟩, dims, dt⟩ idx h, get_mismatch ⟨⟨data, q'⟩, dims, dt⟩ idx h]

theorem get_snd_shape (data : List Nat) (q : Nat) (dims : List Nat) (dt : IdxDataType)
    (idx : List Nat) :
    ∃ q', (IdxCursor.get ⟨⟨data, q⟩, dims, dt⟩ idx).2 = ⟨⟨data, q'⟩, dims, dt⟩ := by
  by_cases h : idx.length = dims.length
  · cases hcb : checkBounds dims idx 0 with
    | some e => exact ⟨q, by rw [get_checkBounds ⟨⟨data, q⟩, dims, dt⟩ idx e h hcb]⟩
    | none =>
      rw [get_inbounds ⟨⟨data, q⟩, dims, dt⟩ idx h hcb]
      rcases hre : readExact
          ⟨data,
            (elemPos dims idx * dt.get_size % 2 ^ 64 + (4 + 4 * dims.length)) % 2 ^ 64⟩
          dt.create_buf.length with ⟨res, r1⟩
      have hdata : r1.data = data := by
        revert hre
        unfold readExact
        split <;> (intro hre; cases hre; rfl)
      cases res with
      | ok buf => exact ⟨r1.pos, by simp [hre, ← hdata]⟩
      | error e => exact ⟨r1.pos, by simp [hre, ← hdata]⟩
  · exact ⟨q, by rw [get_mismatch ⟨⟨data, q⟩, dims, dt⟩ idx h]⟩

/-! ### Claim theorems -/

/-- Claim C1 (code bug): the claim says `get` seeks to the C-order flat index
`sum_i idx[i] * prod_j>i d[j]` times the byte width plus the header size, so
that on the spec's worked example (dims `[2, 3]`, UnsignedByte) `get [1, 2]`
reads the byte at offset 17 (flat index 5, value 15).  The code instead folds
`mult *= d; pos += idx * mult`, so each axis's multiplier includes that axis's
own size: on the worked example it computes element offset 12 (≠ 1*3+2 = 5),
seeks to byte 24, and fails with `IoError` on the well-formed 18-byte file.
`get [0, 0]` (offset 0) still reads offset 12 correctly. -/
theorem c1_offset_divergence :
    create_idx_cursor ⟨exampleFile, 0⟩ =
      .ok ⟨⟨exampleFile, 12⟩, [2, 3], .unsignedByte⟩
    ∧ elemPos [2, 3] [1, 2] = 12
    ∧ elemPos [2, 3] [1, 2] ≠ 1 * 3 + 2
    ∧ (IdxCursor.get ⟨⟨exampleFile, 12⟩, [2, 3], .unsignedByte⟩ [1, 2]).1 = .error .ioError
    ∧ (IdxCursor.get ⟨⟨exampleFile, 12⟩, [2, 3], .unsignedByte⟩ [0, 0]).1 =
      .ok (.unsignedByte, [10]) := by
  decide

/-- Claim C2, counterexample: on the rank-0 file `[0, 0, 8, 0, 42]` the parser
yields a rank-0 cursor, and `get []` does NOT fail: it succeeds and reads the
scalar byte 42 at offset 4, so "every get call on such a cursor fails" is
false. -/
theorem c2_counterexample :
    create_idx_cursor ⟨[0, 0, 8, 0, 42], 0⟩ = .ok ⟨⟨[0, 0, 8, 0, 42], 4⟩, [], .unsignedByte⟩
    ∧ (IdxCursor.get ⟨⟨[0, 0, 8, 0, 42], 4⟩, [], .unsignedByte⟩ []).1 =
      .ok (.unsignedByte, [42]) := by
  decide

/-- Claim C2, amended: a header with rank byte 0 is accepted and yields a
cursor of rank 0; any non-empty index tuple fails with `DimensionMismatch`
(needed 0); the empty index tuple is accepted and, when the source has at
least `4 + byteWidth` bytes, reads the scalar element at byte offset 4. -/
theorem c2_amended :
    (∀ (data : List Nat) (p b2 : Nat) (dt : IdxDataType),
      (data.drop p).take 4 = [0, 0, b2, 0] → IdxDataType.read b2 = .ok dt →
      create_idx_cursor ⟨data, p⟩ = .ok ⟨⟨data, p + 4⟩, [], dt⟩)
    ∧ (∀ (data : List Nat) (q : Nat) (dt : IdxDataType) (indices : List Nat),
      indices ≠ [] →
      IdxCursor.get ⟨⟨data, q⟩, [], dt⟩ indices =
        (.error (.dimensionMismatch 0 (indices.length % 256)), ⟨⟨data, q⟩, [], dt⟩))
    ∧ (∀ (data : List Nat) (q : Nat) (dt : IdxDataType),
      4 + dt.get_size ≤ data.length →
      (IdxCursor.get ⟨⟨data, q⟩, [], dt⟩ []).1 = .ok (dt, (data.drop 4).take dt.get_size)) := by
  refine ⟨?_, ?_, ?_⟩
  · intro data p b2 dt hhdr hdt
    have hb := take_four_bound hhdr
    rw [create_idx_cursor_head hhdr, if_neg (by simp), hdt,
      readDims_ok 0 data (p + 4) (by omega)]
    simp [dimsSpec]
  · intro data q dt indices hne
    have h := get_mismatch ⟨⟨data, q⟩, [], dt⟩ indices
      (by simpa using fun hc => hne (List.length_eq_zero.mp hc))
    simpa using h
  · intro data q dt hle
    rw [get_inbounds ⟨⟨data, q⟩, [], dt⟩ [] rfl rfl]
    have hpos : (elemPos ([] : List Nat) [] *
        (IdxDataType.get_size dt) % 2 ^ 64 + (4 + 4 * ([] : List Nat).length)) % 2 ^ 64 = 4 := by
      have : elemPos ([] : List Nat) [] = 0 := rfl
      rw [this]
      norm_num
    simp only [hpos]
    rw [readExact_ok ⟨data, 4⟩ dt.create_buf.length (by simp [create_buf_length]; omega)]
    simp [create_buf_length]

/-- Claim C2 witness: the amended claim instantiated on the concrete rank-0
file `[0, 0, 8, 0, 42]`. -/
theorem c2_amended_witness :
    create_idx_cursor ⟨[0, 0, 8, 0, 42], 0⟩ = .ok ⟨⟨[0, 0, 8, 0, 42], 4⟩, [], .unsignedByte⟩
    ∧ IdxCursor.get ⟨⟨[0, 0, 8, 0, 42], 4⟩, [], .unsignedByte⟩ [7] =
      (.error (.dimensionMismatch 0 1), ⟨⟨[0, 0, 8, 0, 42], 4⟩, [], .unsignedByte⟩)
    ∧ (IdxCursor.get ⟨⟨[0, 0, 8, 0, 42], 4⟩, [], .unsignedByte⟩ []).1 =
      .ok (.unsignedByte, [42]) := by
  obtain ⟨h1, h2, h3⟩ := c2_amended
  refine ⟨?_, ?_, ?_⟩
  · have h := h1 [0, 0, 8, 0, 42] 0 8 .unsignedByte (by decide) (by decide)
    exact h.trans (by decide)
  · have h := h2 [0, 0, 8, 0, 42] 4 .unsignedByte [7] (by decide)
    simpa using h
  · have h := h3 [0, 0, 8, 0, 42] 4 .unsignedByte (by decide)
    exact h.trans (by decide)

/-- Claim C3: for every cursor (of the format's rank range, ≤ 255) and every
index tuple of the correct rank, if `i` is the first axis with
`indices[i] >= dimensions[i]`, then `get` fails with
`OutOfBounds{dimension , max , index}` reporting exactly that axis, its size
and the offending index, leaving the cursor untouched. -/
theorem c3_out_of_bounds_first (data : List Nat) (q : Nat) (dims : List Nat)
    (dt : IdxDataType) (indices : List Nat) (i : Nat)
    (hlen : indices.length = dims.length) (hrank : dims.length ≤ 255)
    (hi : i < dims.length)
    (hfirst : ∀ j, j < i → indices.getD j 0 < dims.getD j 0)
    (hviol : dims.getD i 0 ≤ indices.getD i 0) :
    IdxCursor.get ⟨⟨data, q⟩, dims, dt⟩ indices =
      (.error (.outOfBounds i (dims.getD i 0) (indices.getD i 0)), ⟨⟨data, q⟩, dims, dt⟩) := by
  have hcb := checkBounds_first dims indices 0 i hlen hi hfirst hviol
  have hmod : (0 + i) % 256 = i := by omega
  rw [hmod] at hcb
  exact get_checkBounds ⟨⟨data, q⟩, dims, dt⟩ indices _ hlen hcb

/-- Claim C3 witness: on a cursor with dimensions `[3, 2]`, `get [3, 0]` fails
with `OutOfBounds{dimension 0, max 3, index 3}` and `get [0, 2]` fails with
`OutOfBounds{dimension 1, max 2, index 2}`. -/
theorem c3_witness :
    IdxCursor.get ⟨⟨[], 0⟩, [3, 2], .unsignedByte⟩ [3, 0] =
      (.error (.outOfBounds 0 3 3), ⟨⟨[], 0⟩, [3, 2], .unsignedByte⟩)
    ∧ IdxCursor.get ⟨⟨[], 0⟩, [3, 2], .unsignedByte⟩ [0, 2] =
      (.error (.outOfBounds 1 2 2), ⟨⟨[], 0⟩, [3, 2], .unsignedByte⟩) := by
  constructor
  · have h := c3_out_of_bounds_first [] 0 [3, 2] .unsignedByte [3, 0] 0 (by decide)
      (by decide) (by decide) (fun j hj => absurd hj (by omega)) (by decide)
    simpa using h
  · have h := c3_out_of_bounds_first [] 0 [3, 2] .unsignedByte [0, 2] 1 (by decide)
      (by decide) (by decide)
      (fun j hj => by
        have hj0 : j = 0 := by omega
        subst hj0
        decide)
      (by decide)
    simpa using h

/-- Claim C4, counterexample: the `DimensionMismatch` payload fields are cast
to `u8`, so on a rank-2 cursor a supplied tuple of length 257 is reported as
`supplied = 1`, not 257 as the claim states. -/
theorem c4_counterexample :
    (IdxCursor.get ⟨⟨[], 0⟩, [3, 2], .unsignedByte⟩ (List.replicate 257 0)).1 =
      .error (.dimensionMismatch 2 1)
    ∧ (IdxCursor.get ⟨⟨[], 0⟩, [3, 2], .unsignedByte⟩ (List.replicate 257 0)).1 ≠
      .error (.dimensionMismatch 2 257) := by
  decide

/-- Claim C4, amended: for every cursor of rank `R` and every index tuple
whose length `L` differs from `R`, `get` fails with
`DimensionMismatch{needed: R mod 256, supplied: L mod 256}` (equal to `R` and
`L` whenever they are below 256), performing no seek or read: the cursor, and
in particular its reader, is returned unchanged. -/
theorem c4_amended (c : IdxCursor) (indices : List Nat)
    (h : indices.length ≠ c.dimensions.length) :
    c.get indices =
      (.error (.dimensionMismatch (c.dimensions.length % 256) (indices.length % 256)), c)
    ∧ (c.dimensions.length < 256 → c.dimensions.length % 256 = c.dimensions.length)
    ∧ (indices.length < 256 → indices.length % 256 = indices.length) :=
  ⟨get_mismatch c indices h, fun h2 => Nat.mod_eq_of_lt h2, fun h2 => Nat.mod_eq_of_lt h2⟩

/-- Claim C4 witness: a rank-2 cursor with a length-1 tuple reports
`DimensionMismatch{needed 2, supplied 1}` and leaves the cursor unchanged. -/
theorem c4_witness :
    IdxCursor.get ⟨⟨[], 0⟩, [3, 2], .unsignedByte⟩ [0] =
      (.error (.dimensionMismatch 2 1), ⟨⟨[], 0⟩, [3, 2], .unsignedByte⟩) := by
  have h := (c4_amended ⟨⟨[], 0⟩, [3, 2], .unsignedByte⟩ [0] (by decide)).1
  simpa using h

/-- Claim C5: any input whose first two header bytes are not both `0x00`
fails with `WrongHeader`, whatever the type-tag byte and the rank byte are. -/
theorem c5_wrong_header (data : List Nat) (p b0 b1 b2 b3 : Nat)
    (h : (data.drop p).take 4 = [b0, b1, b2, b3]) (hnz : b0 ≠ 0 ∨ b1 ≠ 0) :
    create_idx_cursor ⟨data, p⟩ = .error .wrongHeader := by
  rw [create_idx_cursor_head h, if_pos hnz]

/-- Claim C5 witness: the input `[255, 0, 8, 1]` (valid type tag and rank)
fails with `WrongHeader`. -/
theorem c5_witness : create_idx_cursor ⟨[255, 0, 8, 1], 0⟩ = .error .wrongHeader :=
  c5_wrong_header [255, 0, 8, 1] 0 255 0 8 1 (by decide) (by decide)

/-- Claim C6: the type tag resolves exactly via the fixed lookup
{0x08 u8, 0x09 i8, 0x0B i16, 0x0C i32, 0x0D f32, 0x0E f64}; every other byte
value fails with `UnknownDataType`, and so does the whole parser on a header
carrying such a tag. -/
theorem c6_type_lookup :
    IdxDataType.read 0x08 = .ok .unsignedByte
    ∧ IdxDataType.read 0x09 = .ok .signedByte
    ∧ IdxDataType.read 0x0b = .ok .short
    ∧ IdxDataType.read 0x0c = .ok .int
    ∧ IdxDataType.read 0x0d = .ok .float
    ∧ IdxDataType.read 0x0e = .ok .double
    ∧ (∀ b : Nat, b ≠ 0x08 → b ≠ 0x09 → b ≠ 0x0b → b ≠ 0x0c → b ≠ 0x0d → b ≠ 0x0e →
      IdxDataType.read b = .error .unknownDataType)
    ∧ (∀ (data : List Nat) (p b2 b3 : Nat),
      (data.drop p).take 4 = [0, 0, b2, b3] →
      IdxDataType.read b2 = .error .unknownDataType →
      create_idx_cursor ⟨data, p⟩ = .error .unknownDataType) := by
  refine ⟨rfl, rfl, rfl, rfl, rfl, rfl, ?_, ?_⟩
  · intro b h8 h9 hb hc hd he
    simp [IdxDataType.read, h8, h9, hb, hc, hd, he]
  · intro data p b2 b3 h hread
    rw [create_idx_cursor_head h, if_neg (by simp), hread]

/-- Claim C6 witness: tag byte 10 (0x0A) is rejected, both by the lookup and
by the parser on the input `[0, 0, 10, 0]`. -/
theorem c6_witness :
    IdxDataType.read 10 = .error .unknownDataType
    ∧ create_idx_cursor ⟨[0, 0, 10, 0], 0⟩ = .error .unknownDataType := by
  obtain ⟨-, -, -, -, -, -, hother, hparse⟩ := c6_type_lookup
  have hr := hother 10 (by decide) (by decide) (by decide) (by decide) (by decide) (by decide)
  exact ⟨hr, hparse [0, 0, 10, 0] 0 10 0 (by decide) hr⟩

/-- Claim C7: for a well-formed header `[0, 0, tag, n]` the parser reads
exactly `n` further 4-byte big-endian values, appended in order (axis 0
first), and leaves the source position advanced by exactly `4 + 4n` bytes; a
source too short for the header or the dimension table fails with `IoError`. -/
theorem c7_header_dims (data : List Nat) (p b2 b3 : Nat) (dt : IdxDataType)
    (hhdr : (data.drop p).take 4 = [0, 0, b2, b3])
    (hdt : IdxDataType.read b2 = .ok dt) :
    (p + 4 + 4 * b3 ≤ data.length →
      create_idx_cursor ⟨data, p⟩ =
        .ok ⟨⟨data, p + 4 + 4 * b3⟩, dimsSpec data (p + 4) b3, dt⟩)
    ∧ (data.length < p + 4 + 4 * b3 → create_idx_cursor ⟨data, p⟩ = .error .ioError)
    ∧ (dimsSpec data (p + 4) b3).length = b3 := by
  refine ⟨?_, ?_, dimsSpec_length data b3 (p + 4)⟩
  · intro hle
    rw [create_idx_cursor_head hhdr, if_neg (by simp), hdt,
      readDims_ok b3 data (p + 4) (by omega)]
  · intro hlt
    have hb := take_four_bound hhdr
    have hb3 : 1 ≤ b3 := by omega
    rw [create_idx_cursor_head hhdr, if_neg (by simp), hdt,
      readDims_err b3 data (p + 4) hb3 (by omega)]

/-- Claim C7 witness: a rank-2 header with dimension words 2 and 3 parses to
dimensions `[2, 3]` with the position advanced to 12; truncating the second
dimension word fails with `IoError`. -/
theorem c7_witness :
    create_idx_cursor ⟨[0, 0, 8, 2, 0, 0, 0, 2, 0, 0, 0, 3, 99], 0⟩ =
      .ok ⟨⟨[0, 0, 8, 2, 0, 0, 0, 2, 0, 0, 0, 3, 99], 12⟩, [2, 3], .unsignedByte⟩
    ∧ create_idx_cursor ⟨[0, 0, 8, 2, 0, 0, 0, 2, 0, 0], 0⟩ = .error .ioError := by
  constructor
  · have h := (c7_header_dims [0, 0, 8, 2, 0, 0, 0, 2, 0, 0, 0, 3, 99] 0 8 2 .unsignedByte
      (by decide) (by decide)).1 (by decide)
    exact h.trans (by decide)
  · exact (c7_header_dims [0, 0, 8, 2, 0, 0, 0, 2, 0, 0] 0 8 2 .unsignedByte
      (by decide) (by decide)).2.1 (by decide)

/-- Claim C8: for each DataType, a buffer whose length differs from the
type's byte width fails with `CannotCast`; a buffer of exactly the right
width decodes to the big-endian value of the scalar kind, tagged with that
kind (two's complement for the signed kinds, IEEE-754 bit patterns for the
float kinds), e.g. Int bytes `[0, 0, 1, 0]` decode to 256 and Float bytes
`3F 80 00 00` decode to the bits of 1.0. -/
theorem c8_decode :
    (∀ (dt : IdxDataType) (bytes : List Nat), dt.get_size ≠ bytes.length →
      IdxValue.tryFrom dt bytes = .error .cannotCast)
    ∧ (∀ bytes : List Nat, bytes.length = 1 →
      IdxValue.tryFrom .unsignedByte bytes = .ok (.unsignedByte (u32_from_be_bytes bytes)))
    ∧ (∀ bytes : List Nat, bytes.length = 1 →
      IdxValue.tryFrom .signedByte bytes = .ok (.signedByte (toSigned 8 (u32_from_be_bytes bytes))))
    ∧ (∀ bytes : List Nat, bytes.length = 2 →
      IdxValue.tryFrom .short bytes = .ok (.short (toSigned 16 (u32_from_be_bytes bytes))))
    ∧ (∀ bytes : List Nat, bytes.length = 4 →
      IdxValue.tryFrom .int bytes = .ok (.int (toSigned 32 (u32_from_be_bytes bytes))))
    ∧ (∀ bytes : List Nat, bytes.length = 4 →
      IdxValue.tryFrom .float bytes = .ok (.float (u32_from_be_bytes bytes)))
    ∧ (∀ bytes : List Nat, bytes.length = 8 →
      IdxValue.tryFrom .double bytes = .ok (.double (u32_from_be_bytes bytes)))
    ∧ IdxValue.tryFrom .unsignedByte [200] = .ok (.unsignedByte 200)
    ∧ IdxValue.tryFrom .signedByte [0xff] = .ok (.signedByte (-1))
    ∧ IdxValue.tryFrom .short [0xff, 0xfe] = .ok (.short (-2))
    ∧ IdxValue.tryFrom .int [0x00, 0x00, 0x01, 0x00] = .ok (.int 256)
    ∧ IdxValue.tryFrom .float [0x3f, 0x80, 0x00, 0x00] = .ok (.float 0x3f800000)
    ∧ IdxValue.tryFrom .double [0x3f, 0xf0, 0, 0, 0, 0, 0, 0] =
      .ok (.double 0x3ff0000000000000) := by
  refine ⟨?_, ?_, ?_, ?_, ?_, ?_, ?_,
    by decide, by decide, by decide, by decide, by decide, by decide⟩
  · intro dt bytes h
    simp [IdxValue.tryFrom, h]
  all_goals intro bytes h
  all_goals simp [IdxValue.tryFrom, fromSlice, h, IdxDataType.get_size, Except.map]

/-- Claim C8 witness: a length-1 buffer for Int fails with `CannotCast`; the
generic Short rule applied to `[1, 2]` gives the big-endian value 258. -/
theorem c8_witness :
    IdxValue.tryFrom .int [0] = .error .cannotCast
    ∧ IdxValue.tryFrom .short [1, 2] = .ok (.short 258) := by
  obtain ⟨hmis, -, -, hshort, -⟩ := c8_decode
  refine ⟨hmis IdxDataType.int [0] (by decide), ?_⟩
  have h := hshort [1, 2] (by decide)
  exact h.trans (by decide)

/-- Claim C9: `get` always repositions the source with an absolute seek, so
two successive `get` calls with the same indices on the same (unmodified)
source return identical results: the result of the second call, issued on the
cursor state left by the first, equals the result of the first. -/
theorem c9_idempotent (c : IdxCursor) (indices : List Nat) :
    ((c.get indices).2.get indices).1 = (c.get indices).1 := by
  obtain ⟨⟨data, q⟩, dims, dt⟩ := c
  obtain ⟨q', hq⟩ := get_snd_shape data q dims dt indices
  rw [hq]
  exact get_fst_pos data q' q dims dt indices

/-- Claim C10: the `DimensionMismatch` payload carries the cursor's rank and
the supplied tuple length reduced modulo 256 (both are cast to `u8`); in
particular a supplied tuple of length `256 + k` (`k < 256`) is reported as
`supplied = k`. -/
theorem c10_mod256 (data : List Nat) (q : Nat) (dims : List Nat) (dt : IdxDataType)
    (indices : List Nat) (k : Nat) (hk : k < 256) (hlen : indices.length = 256 + k)
    (hne : dims.length ≠ 256 + k) :
    (IdxCursor.get ⟨⟨data, q⟩, dims, dt⟩ indices).1 =
      .error (.dimensionMismatch (dims.length % 256) k) := by
  have h := get_mismatch ⟨⟨data, q⟩, dims, dt⟩ indices
    (by show indices.length ≠ dims.length; omega)
  rw [h, hlen, Nat.add_mod_left, Nat.mod_eq_of_lt hk]

/-- Claim C10 witness: a rank-1 cursor given a tuple of length 260 reports
`DimensionMismatch{needed 1, supplied 4}`. -/
theorem c10_witness :
    (IdxCursor.get ⟨⟨[], 0⟩, [5], .unsignedByte⟩ (List.replicate 260 0)).1 =
      .error (.dimensionMismatch 1 4) := by
  have h := c10_mod256 [] 0 [5] .unsignedByte (List.replicate 260 0) 4
    (by decide) (by rw [List.length_replicate]) (by decide)
  exact h.trans (by decide)
